import Mathlib

/-!
Verification of the incremental synchronization and rendering core of a
Slack-workspace archiver (sources: src/download-messages.ts and
src/create-html.tsx).  Timestamps are Slack timestamp strings
"<seconds>.<fraction>", modelled as a pair of naturals; JavaScript
`parseInt` on such a string yields the seconds part.  Optional JavaScript
fields are modelled as `Option`; JavaScript string truthiness (undefined
and "" are falsy) is modelled explicitly.
-/

/-- A Slack timestamp "<sec>.<frac>" (e.g. "1618508941.000100"). -/
structure Ts where
  sec : Nat
  frac : Nat
deriving DecidableEq, Repr

/-- Base message record (the fields the synchronizer reads): Slack `Message`
from interfaces.ts. -/
structure Message where
  ts : Option Ts := none
  user : Option String := none
  bot_id : Option String := none
  reply_count : Option Nat := none
  thread_ts : Option Ts := none
deriving DecidableEq, Repr

/-- `ArchiveMessage extends SlackMessage { replies?: Array<SlackMessage> }`
from interfaces.ts. -/
structure ArchiveMessage extends Message where
  replies : Option (List Message) := none
deriving DecidableEq, Repr

/-- Channel record (only the field the synchronizer branches on). -/
structure Channel where
  id : Option String := none
deriving DecidableEq, Repr

/-- JavaScript truthiness of an optional string: undefined and "" are falsy. -/
def truthy : Option String → Bool
  | none => false
  | some s => !(s = "")

/-- A resolved user/bot profile record. -/
structure UserRec where
  name : String := ""
deriving DecidableEq, Repr

/-- The users cache (`Users = Record<string, User>`), modelled as an
association list; `users[identifier] = user` on an absent key is prepending. -/
abbrev Users := List (String × UserRec)

/-- Which info endpoint is called: `users.info` or `bots.info`. -/
inductive Kind where
  | user
  | bot
deriving DecidableEq, Repr

/-- Result of one `downloadUser` call: the returned record, the cache after
the call, and how many remote lookups were issued. -/
structure DUResult where
  found : Option UserRec
  users : Users
  calls : Nat
deriving DecidableEq, Repr

/-- `downloadUser` from src/download-messages.ts lines 32-58:
`identifier = item.user || item.bot_id`; return null if falsy; return the
cached record if present; otherwise call the kind-specific info endpoint,
cache a truthy result, and return it (a null remote result is not cached). -/
def downloadUser (remote : Kind → String → Option UserRec) (item : Message)
    (users : Users) : DUResult :=
  let idOpt : Option String := if truthy item.user then item.user else item.bot_id
  let kind : Kind := if truthy item.user then Kind.user else Kind.bot
  match idOpt with
  | none => ⟨none, users, 0⟩
  | some ident =>
    if ident = "" then ⟨none, users, 0⟩
    else
      match users.lookup ident with
      | some u => ⟨some u, users, 0⟩
      | none =>
        match remote kind ident with
        | some u => ⟨some u, (ident, u) :: users, 1⟩
        | none => ⟨none, users, 1⟩

/-- Repeated resolution of the same item within one run: iterate
`downloadUser`, threading the cache and summing the remote-call counts. -/
def resolveIter (remote : Kind → String → Option UserRec) (item : Message) :
    Nat → Users → Users × Nat
  | 0, users => (users, 0)
  | n + 1, users =>
    let r := downloadUser remote item users
    let rest := resolveIter remote item n r.users
    (rest.1, r.calls + rest.2)

/-- The identifier a message resolves through: `item.user || item.bot_id`
(line 37) — the `user` field when truthy, the `bot_id` field otherwise. -/
def itemIdent (item : Message) : Option String :=
  if truthy item.user then item.user else item.bot_id

/-- Which info endpoint the identifier is resolved against (line 38):
`users.info` when the `user` field is truthy, `bots.info` otherwise. -/
def itemKind (item : Message) : Kind :=
  if truthy item.user then Kind.user else Kind.bot

theorem downloadUser_eq (remote : Kind → String → Option UserRec)
    (item : Message) (users : Users) :
    downloadUser remote item users =
      match itemIdent item with
      | none => ⟨none, users, 0⟩
      | some ident =>
        if ident = "" then ⟨none, users, 0⟩
        else
          match users.lookup ident with
          | some u => ⟨some u, users, 0⟩
          | none =>
            match remote (itemKind item) ident with
            | some u => ⟨some u, (ident, u) :: users, 1⟩
            | none => ⟨none, users, 1⟩ := rfl

theorem downloadUser_cached (remote : Kind → String → Option UserRec)
    (item : Message) (users : Users) (ident : String) (u : UserRec)
    (hi : itemIdent item = some ident) (hne : ¬ ident = "")
    (hc : users.lookup ident = some u) :
    downloadUser remote item users = ⟨some u, users, 0⟩ := by
  rw [downloadUser_eq remote item users, hi]
  simp [hne, hc]

theorem resolveIter_cached (remote : Kind → String → Option UserRec)
    (item : Message) (users : Users) (ident : String) (u : UserRec)
    (hi : itemIdent item = some ident) (hne : ¬ ident = "")
    (hc : users.lookup ident = some u) :
    ∀ n, resolveIter remote item n users = (users, 0) := by
  intro n
  induction n with
  | zero => rfl
  | succ n ih =>
    unfold resolveIter
    rw [downloadUser_cached remote item users ident u hi hne hc]
    simp [ih]

def uid1 : String := "U1"

def remoteNone : Kind → String → Option UserRec := fun _ _ => none

def userA : UserRec := {}

def remoteA : Kind → String → Option UserRec := fun _ _ => some userA

def itemU : Message := { user := some uid1 }

def itemNoId : Message := {}

/-- C9 counterexample: for an identifier the remote cannot resolve (the
lookup returns null, which `downloadUser` does not cache), two successive
resolutions of the same identifier issue two remote lookups — not exactly
one as the claim states. -/
theorem C9_counterexample :
    (resolveIter remoteNone itemU 2 []).2 = 2 ∧
      ¬ (resolveIter remoteNone itemU 2 []).2 = 1 := by
  constructor
  · decide
  · decide

def bid1 : String := "B1"

def itemB : Message := { bot_id := some bid1 }

/-- C9 (amended): repeated resolution of the same identifier — whichever
field carries it, `user` (resolved against the user endpoint) or `bot_id`
(resolved against the bot endpoint) — issues at most one successful remote
lookup: if the identifier is already cached, every resolution returns with
zero remote calls and the cache unchanged; if it is uncached and the
kind-specific remote lookup resolves it, any positive number of repeated
resolutions issues exactly one remote lookup in total and ends with the
record cached.  (Unresolvable identifiers are re-looked-up each time, since
null results are not cached.) -/
theorem C9_entity_cache (remote : Kind → String → Option UserRec)
    (item : Message) (users : Users) (ident : String) (u : UserRec)
    (hi : itemIdent item = some ident) (hne : ¬ ident = "") :
    (users.lookup ident = some u →
      ∀ n, resolveIter remote item n users = (users, 0)) ∧
    (users.lookup ident = none → remote (itemKind item) ident = some u →
      ∀ n, 1 ≤ n →
        resolveIter remote item n users = ((ident, u) :: users, 1)) := by
  constructor
  · intro hc n
    exact resolveIter_cached remote item users ident u hi hne hc n
  · intro hnc hr n hn
    match n, hn with
    | n + 1, _ =>
      unfold resolveIter
      have hfirst : downloadUser remote item users = ⟨some u, (ident, u) :: users, 1⟩ := by
        rw [downloadUser_eq remote item users, hi]
        simp [hne, hnc, hr]
      rw [hfirst]
      have hcons : ((ident, u) :: users).lookup ident = some u := by
        simp [List.lookup]
      have hrest := resolveIter_cached remote item ((ident, u) :: users) ident u hi hne hcons n
      simp [hrest]

/-- C9 witness: the amended theorem applied to a concrete uncached,
resolvable identifier carried in the `bot_id` field, exercising the
bot-endpoint branch of `downloadUser`. -/
theorem C9_witness :
    itemIdent itemB = some bid1 ∧ (¬ bid1 = "") ∧
    ((([] : Users).lookup bid1 = some userA →
        ∀ n, resolveIter remoteA itemB n [] = ([], 0)) ∧
      (([] : Users).lookup bid1 = none →
          remoteA (itemKind itemB) bid1 = some userA →
        ∀ n, 1 ≤ n →
          resolveIter remoteA itemB n [] = ((bid1, userA) :: [], 1))) :=
  ⟨by decide, by decide, C9_entity_cache remoteA itemB [] bid1 userA (by decide) (by decide)⟩

/-- C10: for a message with neither a `user` nor a `bot_id` field set,
`downloadUser` returns null immediately, issues no remote lookup, and
leaves the users cache unchanged. -/
theorem C10_no_identifier (remote : Kind → String → Option UserRec)
    (item : Message) (users : Users)
    (hu : item.user = none) (hb : item.bot_id = none) :
    downloadUser remote item users = ⟨none, users, 0⟩ := by
  unfold downloadUser
  simp [hu, hb, truthy]

/-- C10 witness: the theorem applied to a concrete identifier-less message. -/
theorem C10_witness :
    itemNoId.user = none ∧ itemNoId.bot_id = none ∧
      downloadUser remoteNone itemNoId [] = ⟨none, [], 0⟩ :=
  ⟨rfl, rfl, C10_no_identifier remoteNone itemNoId [] rfl rfl⟩

/-- Numeric value of an optional timestamp as a (seconds, fraction) pair;
a missing timestamp behaves like 0 (`message.ts || "0"`). -/
def optKey : Option Ts → Nat × Nat
  | some t => (t.sec, t.frac)
  | none => (0, 0)

def msgKey (m : ArchiveMessage) : Nat × Nat := optKey m.ts

/-- Strict numeric order on timestamp values: seconds, then fraction. -/
abbrev keyLt (a b : Nat × Nat) : Prop := a.1 < b.1 ∨ (a.1 = b.1 ∧ a.2 < b.2)

/-- Newest-first adjacency: the earlier list entry is strictly newer. -/
abbrev msgDesc (a b : ArchiveMessage) : Prop := keyLt (msgKey b) (msgKey a)

/-- src/download-messages.ts lines 122-123: the fetch cursor is
`parseInt(result.messages[0].ts || "0", 10)` for a non-empty persisted
collection (the integer seconds of the FIRST stored message) and 0
otherwise. -/
def oldestCursor : List ArchiveMessage → Nat
  | [] => 0
  | m :: _ => (optKey m.ts).1

/-- Following the spec's words (§4.1): the timestamp of the oldest stored
message of the newest-first collection, i.e. its last element, as an
integer-second cursor.  Stated only to compare with `oldestCursor`. -/
def specOldestCursor (msgs : List ArchiveMessage) : Nat :=
  match msgs.getLast? with
  | some m => (optKey m.ts).1
  | none => 0

/-- Result of `downloadMessages`: the merged collection and the number of
messages fetched this run. -/
structure SyncResult where
  messages : List ArchiveMessage
  new : Nat
deriving DecidableEq, Repr

/-- The merge loop of src/download-messages.ts lines 131-148: each fetched
page is `unshift`ed (prepended, preserving the page's internal order) onto
the accumulator that starts as the persisted collection. -/
def mergePages (pages : List (List ArchiveMessage))
    (persisted : List ArchiveMessage) : List ArchiveMessage :=
  pages.foldl (fun acc page => page ++ acc) persisted

/-- `result.new` accumulation of src/download-messages.ts line 144. -/
def newCount (pages : List (List ArchiveMessage)) : Nat :=
  pages.foldl (fun n page => n + page.length) 0

/-- `downloadMessages` from src/download-messages.ts lines 103-153, with the
paginated remote as a parameter from cursor to pages: a channel without a
truthy id yields the empty result; otherwise the persisted collection is
loaded, the cursor computed, and every fetched page prepended. -/
def downloadMessages (remote : Nat → List (List ArchiveMessage))
    (channel : Channel) (persisted : List ArchiveMessage) : SyncResult :=
  if truthy channel.id then
    { messages := mergePages (remote (oldestCursor persisted)) persisted,
      new := newCount (remote (oldestCursor persisted)) }
  else { messages := [], new := 0 }

/-- A message strictly newer than an integer-second cursor. -/
def tsAfter (c : Nat) (m : ArchiveMessage) : Bool := decide (keyLt (c, 0) (msgKey m))

/-- Modelled from the spec: the transport collaborator
`fetchHistory(channelId, sinceTimestamp)` (§6) — the transport layer is an
external collaborator, not part of src/.  Per §4.1 it returns "pages of
messages newer than the cursor", newest-first; modelled as a single page
holding the messages of the full remote history strictly newer than the
cursor. -/
def fetchHistory (history : List ArchiveMessage) (c : Nat) :
    List (List ArchiveMessage) :=
  [history.filter (tsAfter c)]

/-- How many stored messages carry a given timestamp. -/
def countTs (t : Option Ts) (l : List ArchiveMessage) : Nat :=
  l.countP (fun m => decide (m.ts = t))

/-- No two stored messages share a timestamp. -/
abbrev noDupTs (l : List ArchiveMessage) : Prop :=
  l.Pairwise (fun a b => ¬ a.ts = b.ts)

def cid1 : String := "C"

def chanC : Channel := { id := some cid1 }

def ts51 : Ts := ⟨5, 1⟩

def msg51 : ArchiveMessage := { ts := some ts51 }

def ts105 : Ts := ⟨10, 5⟩

def msg105 : ArchiveMessage := { ts := some ts105 }

def ts10 : Ts := ⟨10, 0⟩

def msg10 : ArchiveMessage := { ts := some ts10 }

def ts5 : Ts := ⟨5, 0⟩

def msg5 : ArchiveMessage := { ts := some ts5 }

def probeMsg : ArchiveMessage := { ts := some ⟨99, 0⟩ }

/-- A remote that delivers one message exactly when called with cursor `c`:
used to observe which cursor `downloadMessages` passes to the fetch. -/
def probeAt (c : Nat) : Nat → List (List ArchiveMessage) :=
  fun c2 => if c2 = c then [[probeMsg]] else []

theorem countTs_mergePages (t : Option Ts) :
    ∀ (pages : List (List ArchiveMessage)) (persisted : List ArchiveMessage),
      countTs t (mergePages pages persisted) =
        (pages.map (countTs t)).sum + countTs t persisted := by
  intro pages
  induction pages with
  | nil => intro persisted; simp [mergePages]
  | cons pg pgs ih =>
    intro persisted
    have hstep : mergePages (pg :: pgs) persisted = mergePages pgs (pg ++ persisted) := rfl
    rw [hstep, ih]
    simp [countTs, List.countP_append]
    omega

/-- C1 counterexample: a remote that re-delivers a persisted message (here
legitimately: the integer-truncated cursor 5 is strictly below the stored
timestamp 5.1, so the strictly-newer-than-cursor fetch returns it again)
leaves the collection with two messages of the same timestamp after the
merge: `downloadMessages` does not de-duplicate by timestamp. -/
theorem C1_counterexample :
    (downloadMessages (fetchHistory [msg51]) chanC [msg51]).messages
        = [msg51, msg51] ∧
      ¬ noDupTs (downloadMessages (fetchHistory [msg51]) chanC [msg51]).messages := by
  constructor
  · decide
  · decide

/-- C1 (amended): the merge performed by `downloadMessages` de-duplicates
nothing: every fetched page is prepended verbatim, so for every timestamp
the number of stored messages bearing it after the merge is the number
among the fetched pages plus the number already persisted.  Duplicates
arise exactly when the remote re-delivers an already-persisted timestamp,
and then both copies are kept. -/
theorem C1_merge_keeps_all (remote : Nat → List (List ArchiveMessage))
    (channel : Channel) (persisted : List ArchiveMessage) (t : Option Ts)
    (h : truthy channel.id = true) :
    countTs t (downloadMessages remote channel persisted).messages =
      ((remote (oldestCursor persisted)).map (countTs t)).sum
        + countTs t persisted := by
  unfold downloadMessages
  rw [h]
  simp [countTs_mergePages]

/-- C1 witness: the amended theorem applied to the concrete re-delivery
scenario of the counterexample. -/
theorem C1_witness :
    truthy chanC.id = true ∧
      countTs (some ts51)
          (downloadMessages (fetchHistory [msg51]) chanC [msg51]).messages =
        ((fetchHistory [msg51] (oldestCursor [msg51])).map
            (countTs (some ts51))).sum + countTs (some ts51) [msg51] :=
  ⟨by decide, C1_merge_keeps_all (fetchHistory [msg51]) chanC [msg51] (some ts51) (by decide)⟩

/-- C2 counterexample: for the persisted newest-first collection
[ts 10.0, ts 5.0], the oldest stored message has timestamp 5, but the code
computes cursor 10 (the first — newest — stored message); a probing remote
confirms that the fetch is issued with cursor 10, not 5. -/
theorem C2_counterexample :
    oldestCursor [msg10, msg5] = 10 ∧
      specOldestCursor [msg10, msg5] = 5 ∧
      ¬ oldestCursor [msg10, msg5] = specOldestCursor [msg10, msg5] ∧
      (downloadMessages (probeAt 5) chanC [msg10, msg5]).new = 0 ∧
      (downloadMessages (probeAt 10) chanC [msg10, msg5]).new = 1 := by
  refine ⟨by decide, by decide, by decide, by decide, by decide⟩

/-- C2 (amended): for a non-empty persisted collection the fetch cursor is
the integer seconds of the FIRST stored message, which — the collection
being newest-first — is the NEWEST stored message (it dominates every
stored timestamp); for an empty collection the cursor is 0. -/
theorem C2_cursor_is_newest (m : ArchiveMessage) (rest : List ArchiveMessage)
    (t : Ts) (hm : m.ts = some t) (hs : (m :: rest).Pairwise msgDesc) :
    oldestCursor (m :: rest) = t.sec ∧
      (∀ m2 ∈ m :: rest, keyLt (msgKey m2) (msgKey m) ∨ msgKey m2 = msgKey m) ∧
      oldestCursor [] = 0 := by
  refine ⟨?_, ?_, rfl⟩
  · simp [oldestCursor, optKey, hm]
  · intro m2 hm2
    rcases List.mem_cons.mp hm2 with rfl | hmem
    · exact Or.inr rfl
    · exact Or.inl ((List.pairwise_cons.mp hs).1 m2 hmem)

/-- C2 witness: the amended theorem applied to the concrete collection of
the counterexample. -/
theorem C2_witness :
    msg10.ts = some ts10 ∧ ([msg10, msg5].Pairwise msgDesc) ∧
      (oldestCursor [msg10, msg5] = ts10.sec ∧
        (∀ m2 ∈ [msg10, msg5],
          keyLt (msgKey m2) (msgKey msg10) ∨ msgKey m2 = msgKey msg10) ∧
        oldestCursor [] = 0) :=
  ⟨rfl, by decide, C2_cursor_is_newest msg10 [msg5] ts10 rfl (by decide)⟩

/-- A message whose timestamp is present and has zero fractional part. -/
def intTs (m : ArchiveMessage) : Bool :=
  match m.ts with
  | some t => decide (t.frac = 0)
  | none => false

theorem keyLt_trans {a b c : Nat × Nat} (h1 : keyLt a b) (h2 : keyLt b c) :
    keyLt a c := by
  rcases a with ⟨a1, a2⟩
  rcases b with ⟨b1, b2⟩
  rcases c with ⟨c1, c2⟩
  simp only [keyLt] at h1 h2 ⊢
  omega

theorem keyLt_irrefl (a : Nat × Nat) : ¬ keyLt a a := by
  rcases a with ⟨a1, a2⟩
  simp only [keyLt]
  omega

theorem filter_tsAfter_head (c : Nat) :
    ∀ (l : List ArchiveMessage), l.Pairwise msgDesc →
      ∀ f fs, l.filter (tsAfter c) = f :: fs → l.head? = some f := by
  intro l
  induction l with
  | nil => intro _ f fs h; simp at h
  | cons a as _ =>
    intro hp f fs hf
    rw [List.filter_cons] at hf
    by_cases ha : tsAfter c a = true
    · rw [if_pos ha] at hf
      injection hf with h1 _
      rw [h1]
      rfl
    · rw [if_neg ha] at hf
      exfalso
      have hfmem : f ∈ as.filter (tsAfter c) := by
        rw [hf]; exact List.mem_cons_self f fs
      obtain ⟨hfin, hcf⟩ := List.mem_filter.mp hfmem
      have hd : keyLt (msgKey f) (msgKey a) := (List.pairwise_cons.mp hp).1 f hfin
      have hcf2 : keyLt (c, 0) (msgKey f) := of_decide_eq_true hcf
      exact ha (decide_eq_true (keyLt_trans hcf2 hd))

theorem fetch_at_newest_nil (f : ArchiveMessage) (tl : List ArchiveMessage)
    (s : Nat) (hts : f.ts = some ⟨s, 0⟩)
    (hp : (f :: tl).Pairwise msgDesc) :
    (f :: tl).filter (tsAfter s) = [] := by
  apply List.filter_eq_nil_iff.mpr
  intro x hx
  have hkeyf : msgKey f = (s, 0) := by simp [msgKey, optKey, hts]
  rcases List.mem_cons.mp hx with rfl | hmem
  · intro hcontra
    have h2 : keyLt (s, 0) (msgKey x) := of_decide_eq_true hcontra
    rw [hkeyf] at h2
    exact keyLt_irrefl _ h2
  · have hd : keyLt (msgKey x) (msgKey f) := (List.pairwise_cons.mp hp).1 x hmem
    rw [hkeyf] at hd
    intro hcontra
    have h2 : keyLt (s, 0) (msgKey x) := of_decide_eq_true hcontra
    exact keyLt_irrefl _ (keyLt_trans h2 hd)

/-- C3 counterexample: against an unchanged remote whose only message has
timestamp 10.5, the first run fetches it, and the second run — its cursor
being the integer truncation 10 of the stored 10.5 — fetches it AGAIN:
the new-message count is 1, not 0, and the merged collection gains a
duplicate, so it is not identical to the first run's result. -/
theorem C3_counterexample :
    ¬ (downloadMessages (fetchHistory [msg105]) chanC
        (downloadMessages (fetchHistory [msg105]) chanC []).messages).new = 0 ∧
      ¬ (downloadMessages (fetchHistory [msg105]) chanC
          (downloadMessages (fetchHistory [msg105]) chanC []).messages).messages =
        (downloadMessages (fetchHistory [msg105]) chanC []).messages := by
  constructor
  · decide
  · decide

/-- C3 (amended): running `downloadMessages` twice in succession against an
unchanged remote (modelled per the spec as returning the messages of a
fixed newest-first history strictly newer than the cursor) yields a
new-message count of 0 on the second run and leaves the merged collection
identical — provided every remote timestamp has zero fractional part; with
a fractional newest timestamp, the integer truncation of the cursor
re-fetches the newest stored message on every run. -/
theorem C3_idempotent (ch : Channel) (history P0 : List ArchiveMessage)
    (hid : truthy ch.id = true)
    (hs : history.Pairwise msgDesc)
    (hint : ∀ m ∈ history, intTs m = true) :
    (downloadMessages (fetchHistory history) ch
        (downloadMessages (fetchHistory history) ch P0).messages).new = 0 ∧
      (downloadMessages (fetchHistory history) ch
          (downloadMessages (fetchHistory history) ch P0).messages).messages =
        (downloadMessages (fetchHistory history) ch P0).messages := by
  have hdm : ∀ P : List ArchiveMessage,
      downloadMessages (fetchHistory history) ch P =
        { messages := history.filter (tsAfter (oldestCursor P)) ++ P,
          new := (history.filter (tsAfter (oldestCursor P))).length } := by
    intro P
    unfold downloadMessages fetchHistory mergePages newCount
    rw [hid]
    simp
  rcases hF : history.filter (tsAfter (oldestCursor P0)) with _ | ⟨f, fs⟩
  · have h1 : (downloadMessages (fetchHistory history) ch P0).messages = P0 := by
      rw [hdm P0]
      dsimp only
      rw [hF]
      simp
    rw [h1]
    refine ⟨?_, h1⟩
    rw [hdm P0]
    dsimp only
    rw [hF]
    rfl
  · have hhead : history.head? = some f := filter_tsAfter_head _ history hs f fs hF
    obtain ⟨tl, htl⟩ : ∃ tl, history = f :: tl := by
      rcases history with _ | ⟨h0, tl⟩
      · simp at hhead
      · simp only [List.head?_cons, Option.some.injEq] at hhead
        exact ⟨tl, by rw [hhead]⟩
    subst htl
    have hfi : intTs f = true := hint f (List.mem_cons_self f tl)
    obtain ⟨s, hts⟩ : ∃ s, f.ts = some ⟨s, 0⟩ := by
      unfold intTs at hfi
      rcases hft : f.ts with _ | t
      · rw [hft] at hfi
        simp at hfi
      · rw [hft] at hfi
        simp only [decide_eq_true_eq] at hfi
        refine ⟨t.sec, ?_⟩
        rcases t with ⟨tsec, tfrac⟩
        simp only at hfi
        simp [hfi]
    have hcur : oldestCursor
        ((f :: tl).filter (tsAfter (oldestCursor P0)) ++ P0) = s := by
      rw [hF]
      simp [oldestCursor, optKey, hts]
    rw [hdm P0, hdm]
    dsimp only
    rw [hcur, fetch_at_newest_nil f tl s hts hs]
    simp

/-- C3 witness: the amended theorem applied to a concrete one-message
history with an integer-second timestamp. -/
theorem C3_witness :
    truthy chanC.id = true ∧ ([msg10].Pairwise msgDesc) ∧
      (∀ m ∈ [msg10], intTs m = true) ∧
      ((downloadMessages (fetchHistory [msg10]) chanC
          (downloadMessages (fetchHistory [msg10]) chanC []).messages).new = 0 ∧
        (downloadMessages (fetchHistory [msg10]) chanC
            (downloadMessages (fetchHistory [msg10]) chanC []).messages).messages =
          (downloadMessages (fetchHistory [msg10]) chanC []).messages) :=
  ⟨by decide, by decide, by decide,
    C3_idempotent chanC [msg10] [] (by decide) (by decide) (by decide)⟩

/-- `downloadReplies` from src/download-messages.ts lines 155-185, with the
remote `conversations.replies` call as a parameter (channel id, thread
timestamp, `oldest` cursor — `none` models an undefined cursor, the literal
"0" is `some ⟨0, 0⟩`).  Returns the reply list together with whether a
remote fetch was issued.  Guards in source order: missing channel/message
id → []; falsy `reply_count` → []; stored replies at least `reply_count` →
the stored replies, no fetch; otherwise fetch from the last stored reply's
timestamp (or "0") and return the response minus its first entry. -/
def hasAllReplies (m : ArchiveMessage) : Bool :=
  match m.replies with
  | some rs => decide (m.reply_count.getD 0 ≤ rs.length)
  | none => false

def downloadReplies (remote : String → Ts → Option Ts → List Message)
    (channel : Channel) (m : ArchiveMessage) : List Message × Bool :=
  if ¬ truthy channel.id ∨ m.ts = none then ([], false)
  else if m.reply_count.getD 0 = 0 then ([], false)
  else if hasAllReplies m then (m.replies.getD [], false)
  else
    let replies := m.replies.getD []
    let oldest : Option Ts :=
      if 0 < replies.length then
        match replies.getLast? with
        | some r => r.ts
        | none => none
      else some ⟨0, 0⟩
    ((remote (channel.id.getD "") (m.ts.getD ⟨0, 0⟩) oldest).drop 1, true)

/-- Modelled from the spec: the predicate `isThread` lives in
src/threads.ts, which is not included under src/.  Per spec §3, a thread
parent is "a message with `reply_count > 0` and whose own timestamp equals
its thread-anchor timestamp". -/
def isThread (m : ArchiveMessage) : Bool :=
  0 < m.reply_count.getD 0 && m.ts.isSome && decide (m.thread_ts = m.ts)

/-- One pass of the thread-sync loop of `downloadExtras`
(src/download-messages.ts lines 199-206) over a single message:
`message.replies = await downloadReplies(channel, message)` for thread
messages, other messages untouched. -/
def replyStep (remote : String → Ts → Option Ts → List Message)
    (channel : Channel) (m : ArchiveMessage) : ArchiveMessage :=
  if isThread m then { m with replies := some (downloadReplies remote channel m).1 }
  else m

/-- C4: a thread-parent message whose stored reply sequence already has
length at least its `reply_count` is returned unchanged by
`downloadReplies` with no remote fetch, and repeated sync passes never
re-fetch it: the message is a fixed point of the thread-sync step, and
every later `downloadReplies` call again returns the stored replies
without fetching. -/
theorem C4_complete_thread_skips (remote : String → Ts → Option Ts → List Message)
    (channel : Channel) (m : ArchiveMessage) (t : Ts) (rc : Nat)
    (rs : List Message)
    (hcid : truthy channel.id = true) (hts : m.ts = some t)
    (hrc : m.reply_count = some rc) (hpos : 0 < rc)
    (hrs : m.replies = some rs) (hlen : rc ≤ rs.length) :
    downloadReplies remote channel m = (rs, false) ∧
      (∀ n, (replyStep remote channel)^[n] m = m) ∧
      (∀ n, downloadReplies remote channel ((replyStep remote channel)^[n] m) =
        (rs, false)) := by
  have hone : downloadReplies remote channel m = (rs, false) := by
    unfold downloadReplies
    rw [if_neg (by simp [hcid, hts])]
    rw [if_neg (by simp [hrc]; omega)]
    rw [if_pos (show hasAllReplies m = true by
      unfold hasAllReplies
      rw [hrs]
      simpa [hrc] using hlen)]
    simp [hrs]
  have hfix : replyStep remote channel m = m := by
    unfold replyStep
    by_cases hth : isThread m = true
    · rw [if_pos hth, hone]
      rw [← hrs]
    · rw [if_neg hth]
  refine ⟨hone, fun n => Function.iterate_fixed hfix n, fun n => ?_⟩
  rw [Function.iterate_fixed hfix n]
  exact hone

def tsr1 : Ts := ⟨11, 0⟩

def reply1 : Message := { ts := some tsr1 }

def threadParent : ArchiveMessage :=
  { ts := some ts10, thread_ts := some ts10, reply_count := some 1,
    replies := some [reply1] }

def remoteRepliesEmpty : String → Ts → Option Ts → List Message :=
  fun _ _ _ => []

/-- C4 witness: the theorem applied to a concrete complete thread parent
(one stored reply, `reply_count` 1). -/
theorem C4_witness :
    truthy chanC.id = true ∧ threadParent.ts = some ts10 ∧
      threadParent.reply_count = some 1 ∧ 0 < 1 ∧
      threadParent.replies = some [reply1] ∧ 1 ≤ [reply1].length ∧
      (downloadReplies remoteRepliesEmpty chanC threadParent = ([reply1], false) ∧
        (∀ n, (replyStep remoteRepliesEmpty chanC)^[n] threadParent = threadParent) ∧
        (∀ n, downloadReplies remoteRepliesEmpty chanC
            ((replyStep remoteRepliesEmpty chanC)^[n] threadParent) =
          ([reply1], false))) :=
  ⟨by decide, rfl, rfl, by decide, rfl, by decide,
    C4_complete_thread_skips remoteRepliesEmpty chanC threadParent ts10 1 [reply1]
      (by decide) rfl rfl (by decide) rfl (by decide)⟩

def tsr2 : Ts := ⟨12, 0⟩

def tsr3 : Ts := ⟨13, 0⟩

def reply2 : Message := { ts := some tsr2 }

def reply3 : Message := { ts := some tsr3 }

def parentOf10 : Message := { ts := some ts10 }

def remoteR5 : String → Ts → Option Ts → List Message :=
  fun _ _ _ => [parentOf10, reply2, reply3]

/-- An incomplete thread parent: one stored reply, `reply_count` 3. -/
def threadIncomplete : ArchiveMessage :=
  { ts := some ts10, thread_ts := some ts10, reply_count := some 3,
    replies := some [reply1] }

/-- C5: evaluation of `downloadReplies` at the failing input.  For a thread
parent with stored replies [reply1] and `reply_count` 3, where the remote
responds with [parent, reply2, reply3] from the cursor (the last stored
reply's timestamp), the code discards the first response entry but then
returns ONLY the newly fetched replies: the previously stored reply1 is
absent from the result, which is therefore not the claimed append
`stored ++ fetched.drop 1`. -/
theorem C5_replies_replaced :
    (downloadReplies remoteR5 chanC threadIncomplete).1 = [reply2, reply3] ∧
      (downloadReplies remoteR5 chanC threadIncomplete).2 = true ∧
      ¬ reply1 ∈ (downloadReplies remoteR5 chanC threadIncomplete).1 ∧
      ¬ (downloadReplies remoteR5 chanC threadIncomplete).1 =
        [reply1] ++ (remoteR5 cid1 ts10 (some tsr1)).drop 1 := by
  refine ⟨by decide, by decide, by decide, by decide⟩

/-- MESSAGE_CHUNK from src/create-html.tsx line 34. -/
def MESSAGE_CHUNK : Nat := 1000

/-- lodash `chunk(list, n)` as used by `createHtmlForChannel`: successive
contiguous slices of length `n` (the last possibly shorter); size 0 or an
empty list yields no chunks. -/
def chunkList {α : Type} (n : Nat) (l : List α) : List (List α) :=
  match l with
  | [] => []
  | a :: as =>
    if _h : n = 0 then []
    else (a :: as).take n :: chunkList n ((a :: as).drop n)
termination_by l.length
decreasing_by
  simp_wf
  omega

theorem chunkList_nil {α : Type} (n : Nat) : chunkList n ([] : List α) = [] := by
  unfold chunkList
  rfl

theorem chunkList_cons {α : Type} (n : Nat) (l : List α)
    (hn : ¬ n = 0) (hl : ¬ l = []) :
    chunkList n l = l.take n :: chunkList n (l.drop n) := by
  rcases l with _ | ⟨a, as⟩
  · exact absurd rfl hl
  · rw [chunkList.eq_2, dif_neg hn]

theorem chunkList_eq_nil {α : Type} (n : Nat) (l : List α)
    (h : n = 0 ∨ l = []) : chunkList n l = [] := by
  rcases l with _ | ⟨a, as⟩
  · exact chunkList_nil n
  · rcases h with h0 | h0
    · rw [chunkList.eq_2, dif_pos h0]
    · exact absurd h0 (by simp)

theorem chunkList_subset {α : Type} (n : Nat) :
    ∀ (k : Nat) (l : List α), l.length = k →
      ∀ c ∈ chunkList n l, ∀ x ∈ c, x ∈ l := by
  intro k
  induction k using Nat.strong_induction_on with
  | _ k ih =>
    intro l hk c hc x hx
    by_cases h : n = 0 ∨ l = []
    · rw [chunkList_eq_nil n l h] at hc
      simp at hc
    · push_neg at h
      rw [chunkList_cons n l h.1 h.2] at hc
      rcases List.mem_cons.mp hc with rfl | hc2
      · exact List.mem_of_mem_take hx
      · have hlt : (l.drop n).length < k := by
          rw [← hk]
          rcases l with _ | ⟨a, as⟩
          · exact absurd rfl h.2
          · simp only [List.length_drop, List.length_cons]
            omega
        exact List.mem_of_mem_drop (ih _ hlt (l.drop n) rfl c hc2 x hx)

theorem chunkList_ne_nil {α : Type} (n : Nat) :
    ∀ (k : Nat) (l : List α), l.length = k →
      ∀ c ∈ chunkList n l, ¬ c = [] := by
  intro k
  induction k using Nat.strong_induction_on with
  | _ k ih =>
    intro l hk c hc
    by_cases h : n = 0 ∨ l = []
    · rw [chunkList_eq_nil n l h] at hc
      simp at hc
    · push_neg at h
      rw [chunkList_cons n l h.1 h.2] at hc
      rcases List.mem_cons.mp hc with rfl | hc2
      · intro htake
        rcases List.take_eq_nil_iff.mp htake with h0 | h0
        · exact h.1 h0
        · exact h.2 h0
      · have hlt : (l.drop n).length < k := by
          rw [← hk]
          rcases l with _ | ⟨a, as⟩
          · exact absurd rfl h.2
          · simp only [List.length_drop, List.length_cons]
            omega
        exact ih _ hlt (l.drop n) rfl c hc2

theorem chunkList_pairwise {α : Type} (R : α → α → Prop) (n : Nat) :
    ∀ (k : Nat) (l : List α), l.length = k → l.Pairwise R →
      (chunkList n l).Pairwise (fun c d => ∀ a ∈ c, ∀ b ∈ d, R a b) := by
  intro k
  induction k using Nat.strong_induction_on with
  | _ k ih =>
    intro l hk hp
    by_cases h : n = 0 ∨ l = []
    · rw [chunkList_eq_nil n l h]
      exact List.Pairwise.nil
    · push_neg at h
      rw [chunkList_cons n l h.1 h.2]
      have hsplit := List.pairwise_append.mp
        (show (l.take n ++ l.drop n).Pairwise R by
          rw [List.take_append_drop]
          exact hp)
      have hlt : (l.drop n).length < k := by
        rw [← hk]
        rcases l with _ | ⟨a, as⟩
        · exact absurd rfl h.2
        · simp only [List.length_drop, List.length_cons]
          omega
      refine List.pairwise_cons.mpr ⟨?_, ih _ hlt (l.drop n) rfl hsplit.2.1⟩
      intro d hd a ha b hb
      have hbl : b ∈ l.drop n := chunkList_subset n _ (l.drop n) rfl d hd b hb
      exact hsplit.2.2 a ha b hbl

/-- A page as rendered by `renderMessagesPage`: its newest-first slice, its
index, and the total page count it was given. -/
structure RenderedPage where
  msgs : List ArchiveMessage
  index : Nat
  total : Nat
deriving DecidableEq, Repr

/-- The per-chunk render loop of `createHtmlForChannel` (create-html.tsx
lines 557-559): one page per chunk, in order, indexed from 0, each aware
of the total chunk count. -/
def renderPages (total : Nat) : Nat → List (List ArchiveMessage) → List RenderedPage
  | _, [] => []
  | i, c :: cs => ⟨c, i, total⟩ :: renderPages total (i + 1) cs

/-- `createHtmlForChannel` (create-html.tsx lines 538-560): chunk the
newest-first collection into MESSAGE_CHUNK-sized pages and render each;
when there are no chunks, render a single empty page (index 0, total
`chunks.length`, i.e. 0). -/
def channelRender (msgs : List ArchiveMessage) : List RenderedPage :=
  if (chunkList MESSAGE_CHUNK msgs).length = 0 then
    [⟨[], 0, (chunkList MESSAGE_CHUNK msgs).length⟩]
  else
    renderPages (chunkList MESSAGE_CHUNK msgs).length 0 (chunkList MESSAGE_CHUNK msgs)

/-- `messages[messages.length - 1]?.ts` of a page slice: the timestamp of
its last (oldest, pre-reversal) message. -/
def lastTsOf (c : List ArchiveMessage) : Option Ts :=
  match c.getLast? with
  | some m => m.ts
  | none => none

/-- The per-channel trace of `recordPage` calls (create-html.tsx lines
523-528): one call per rendered page in render order with the last
message's timestamp, skipped when the page's slice is empty
(`messages.length > 0` guard). -/
def channelRecords (msgs : List ArchiveMessage) : List (Option Ts) :=
  (channelRender msgs).filterMap fun p =>
    if p.msgs.length = 0 then none else some (lastTsOf p.msgs)

/-- An entry of the messages list rendered by `MessagesPage`. -/
inductive PageItem where
  | msg (m : ArchiveMessage)
  | placeholder (s : String)
deriving DecidableEq, Repr

def placeholderText : String := "No messages were ever sent!"

/-- The messages list of `MessagesPage` (create-html.tsx lines 257-281):
the page's newest-first slice is mapped and reversed for display; if the
resulting list is empty, the "no messages" placeholder is pushed. -/
def messagesPageItems (msgs : List ArchiveMessage) : List PageItem :=
  if ((msgs.map PageItem.msg).reverse).length = 0 then
    (msgs.map PageItem.msg).reverse ++ [PageItem.placeholder placeholderText]
  else (msgs.map PageItem.msg).reverse

def currentMark : String := "current"

def noMark : String := ""

/-- The jump bar of `Pagination` (create-html.tsx lines 472-481): one link
per page index 0..total-1, the current index marked with the "current"
class name, the others with the empty class name. -/
def jumpBar (total index : Nat) : List (Nat × String) :=
  (List.range total).map fun ji => (ji, if ji = index then currentMark else noMark)

/-- `Pagination` (create-html.tsx lines 451-491) renders nothing at all
(no jump bar) when total = 1. -/
def paginationJump (total index : Nat) : Option (List (Nat × String)) :=
  if total = 1 then none else some (jumpBar total index)

theorem renderPages_length (total : Nat) :
    ∀ (i : Nat) (cs : List (List ArchiveMessage)),
      (renderPages total i cs).length = cs.length := by
  intro i cs
  induction cs generalizing i with
  | nil => rfl
  | cons c cs ih => simp [renderPages, ih]

theorem renderPages_filterMap (total : Nat) :
    ∀ (i : Nat) (cs : List (List ArchiveMessage)),
      (renderPages total i cs).filterMap
          (fun p => if p.msgs.length = 0 then none else some (lastTsOf p.msgs)) =
        cs.filterMap (fun c => if c.length = 0 then none else some (lastTsOf c)) := by
  intro i cs
  induction cs generalizing i with
  | nil => rfl
  | cons c cs ih =>
    simp only [renderPages, List.filterMap_cons]
    rw [ih]

theorem filterMap_records :
    ∀ (cs : List (List ArchiveMessage)), (∀ c ∈ cs, ¬ c = []) →
      cs.filterMap (fun c => if c.length = 0 then none else some (lastTsOf c)) =
        cs.map lastTsOf := by
  intro cs
  induction cs with
  | nil => intro _; rfl
  | cons c cs ih =>
    intro h
    have hc : ¬ c = [] := h c (List.mem_cons_self c cs)
    have hcl : ¬ c.length = 0 := by simpa [List.length_eq_zero] using hc
    rw [List.filterMap_cons, List.map_cons]
    rw [if_neg hcl]
    rw [ih (fun d hd => h d (List.mem_cons_of_mem c hd))]

theorem channelRender_nil :
    channelRender ([] : List ArchiveMessage) = [⟨[], 0, 0⟩] := by
  unfold channelRender
  rw [chunkList_nil]
  rfl

theorem channelRecords_eq_map (msgs : List ArchiveMessage) (hne : ¬ msgs = []) :
    channelRecords msgs = (chunkList MESSAGE_CHUNK msgs).map lastTsOf := by
  have hch := chunkList_cons MESSAGE_CHUNK msgs (by decide) hne
  have hlen0 : ¬ (chunkList MESSAGE_CHUNK msgs).length = 0 := by
    rw [hch]
    simp
  unfold channelRecords channelRender
  rw [if_neg hlen0, renderPages_filterMap]
  exact filterMap_records _ (chunkList_ne_nil MESSAGE_CHUNK msgs.length msgs rfl)

/-- C6: a channel with 2500 newest-first messages is partitioned into
exactly 3 contiguous pages of sizes 1000, 1000, 500 — page 0 the newest
1000 (the first 1000 of the newest-first collection), page 2 the oldest
500 (the last 500) — and the jump bar on page 1 lists every page index
0, 1, 2 marking index 1 as current. -/
theorem C6_pagination (msgs : List ArchiveMessage) (hlen : msgs.length = 2500) :
    chunkList MESSAGE_CHUNK msgs =
      [msgs.take 1000, (msgs.drop 1000).take 1000, msgs.drop 2000] ∧
      (chunkList MESSAGE_CHUNK msgs).map List.length = [1000, 1000, 500] ∧
      channelRender msgs =
        [⟨msgs.take 1000, 0, 3⟩, ⟨(msgs.drop 1000).take 1000, 1, 3⟩,
          ⟨msgs.drop 2000, 2, 3⟩] ∧
      paginationJump 3 1 = some [(0, noMark), (1, currentMark), (2, noMark)] := by
  have hMC : MESSAGE_CHUNK = 1000 := rfl
  have hne : ¬ msgs = [] := by
    intro h
    rw [h] at hlen
    simp at hlen
  have hd1 : (msgs.drop 1000).length = 1500 := by simp [hlen]
  have hdd : (msgs.drop 1000).drop 1000 = msgs.drop 2000 := by
    rw [List.drop_drop]
  have hd2 : (msgs.drop 2000).length = 500 := by simp [hlen]
  have hne1 : ¬ msgs.drop 1000 = [] := by
    intro h
    rw [h] at hd1
    simp at hd1
  have hne2 : ¬ msgs.drop 2000 = [] := by
    intro h
    rw [h] at hd2
    simp at hd2
  have hnil3 : (msgs.drop 2000).drop 1000 = [] := by
    apply List.eq_nil_of_length_eq_zero
    simp [hlen]
  have htake3 : (msgs.drop 2000).take 1000 = msgs.drop 2000 :=
    List.take_of_length_le (by rw [hd2]; omega)
  have hchunks : chunkList MESSAGE_CHUNK msgs =
      [msgs.take 1000, (msgs.drop 1000).take 1000, msgs.drop 2000] := by
    rw [hMC]
    rw [chunkList_cons 1000 msgs (by omega) hne]
    rw [chunkList_cons 1000 (msgs.drop 1000) (by omega) hne1]
    rw [hdd]
    rw [chunkList_cons 1000 (msgs.drop 2000) (by omega) hne2]
    rw [hnil3, chunkList_nil, htake3]
  have l0 : (msgs.take 1000).length = 1000 := by
    rw [List.length_take, hlen]
    omega
  have l1 : ((msgs.drop 1000).take 1000).length = 1000 := by
    rw [List.length_take, hd1]
    omega
  refine ⟨hchunks, ?_, ?_, ?_⟩
  · rw [hchunks]
    simp [l0, l1, hd2]
  · unfold channelRender
    rw [hchunks]
    rw [if_neg (by simp)]
    simp [renderPages]
  · decide

/-- C6 witness: the pagination theorem applied to a concrete 2500-message
collection. -/
theorem C6_witness :
    (List.replicate 2500 msg10).length = 2500 ∧
      (chunkList MESSAGE_CHUNK (List.replicate 2500 msg10) =
        [(List.replicate 2500 msg10).take 1000,
          ((List.replicate 2500 msg10).drop 1000).take 1000,
          (List.replicate 2500 msg10).drop 2000] ∧
      (chunkList MESSAGE_CHUNK (List.replicate 2500 msg10)).map List.length =
        [1000, 1000, 500] ∧
      channelRender (List.replicate 2500 msg10) =
        [⟨(List.replicate 2500 msg10).take 1000, 0, 3⟩,
          ⟨((List.replicate 2500 msg10).drop 1000).take 1000, 1, 3⟩,
          ⟨(List.replicate 2500 msg10).drop 2000, 2, 3⟩] ∧
      paginationJump 3 1 = some [(0, noMark), (1, currentMark), (2, noMark)]) :=
  ⟨List.length_replicate 2500 msg10,
    C6_pagination (List.replicate 2500 msg10) (List.length_replicate 2500 msg10)⟩

/-- C7: a channel whose message collection is empty renders exactly one
page, and that page's messages list is exactly the "no messages"
placeholder. -/
theorem C7_empty_channel :
    (channelRender ([] : List ArchiveMessage)).length = 1 ∧
      (channelRender ([] : List ArchiveMessage)).map
          (fun p => messagesPageItems p.msgs) =
        [[PageItem.placeholder placeholderText]] := by
  rw [channelRender_nil]
  constructor
  · rfl
  · rfl

/-- C8 counterexample: for an empty channel one page is rendered (the
placeholder page), but `recordPage` is guarded by `messages.length > 0`
and is not invoked at all — so it is not invoked exactly once for every
rendered page. -/
theorem C8_counterexample :
    (channelRender ([] : List ArchiveMessage)).length = 1 ∧
      channelRecords ([] : List ArchiveMessage) = [] ∧
      ¬ (channelRecords ([] : List ArchiveMessage)).length =
        (channelRender ([] : List ArchiveMessage)).length := by
  have h2 : channelRecords ([] : List ArchiveMessage) = [] := by
    unfold channelRecords
    rw [channelRender_nil]
    rfl
  refine ⟨by rw [channelRender_nil]; rfl, h2, ?_⟩
  rw [h2, channelRender_nil]
  simp

/-- C8 (amended): for a NON-EMPTY channel, `recordPage` is invoked exactly
once per rendered page, in page-index order, with the timestamp of that
page's last (oldest, pre-reversal) message: the record trace equals the
chunk list mapped through the last-timestamp projection, its length is the
number of rendered pages, and — the collection being strictly newest-first
— the recorded boundary sequence is strictly decreasing by page index.
(The placeholder page of an empty channel records nothing.) -/
theorem C8_record_boundaries (msgs : List ArchiveMessage)
    (hne : ¬ msgs = []) (hs : msgs.Pairwise msgDesc) :
    channelRecords msgs = (chunkList MESSAGE_CHUNK msgs).map lastTsOf ∧
      (channelRender msgs).length = (chunkList MESSAGE_CHUNK msgs).length ∧
      (channelRecords msgs).Pairwise (fun a b => keyLt (optKey b) (optKey a)) := by
  have hch := chunkList_cons MESSAGE_CHUNK msgs (by decide) hne
  have hlen0 : ¬ (chunkList MESSAGE_CHUNK msgs).length = 0 := by
    rw [hch]
    simp
  refine ⟨channelRecords_eq_map msgs hne, ?_, ?_⟩
  · unfold channelRender
    rw [if_neg hlen0, renderPages_length]
  · rw [channelRecords_eq_map msgs hne]
    rw [List.pairwise_map]
    have hp := chunkList_pairwise msgDesc MESSAGE_CHUNK msgs.length msgs rfl hs
    have hnn := chunkList_ne_nil MESSAGE_CHUNK msgs.length msgs rfl
    refine List.Pairwise.imp_of_mem ?_ hp
    intro c d hc hd hR
    have hcne : c ≠ [] := hnn c hc
    have hdne : d ≠ [] := hnn d hd
    have hlc : lastTsOf c = (c.getLast hcne).ts := by
      unfold lastTsOf
      rw [List.getLast?_eq_getLast c hcne]
    have hld : lastTsOf d = (d.getLast hdne).ts := by
      unfold lastTsOf
      rw [List.getLast?_eq_getLast d hdne]
    rw [hlc, hld]
    exact hR (c.getLast hcne) (List.getLast_mem hcne)
      (d.getLast hdne) (List.getLast_mem hdne)

def msg2 : ArchiveMessage := { ts := some ⟨2, 0⟩ }

def msg1 : ArchiveMessage := { ts := some ⟨1, 0⟩ }

/-- C8 witness: the amended theorem applied to a concrete two-message
newest-first channel. -/
theorem C8_witness :
    (¬ ([msg2, msg1] : List ArchiveMessage) = []) ∧
      ([msg2, msg1].Pairwise msgDesc) ∧
      (channelRecords [msg2, msg1] =
          (chunkList MESSAGE_CHUNK [msg2, msg1]).map lastTsOf ∧
        (channelRender [msg2, msg1]).length =
          (chunkList MESSAGE_CHUNK [msg2, msg1]).length ∧
        (channelRecords [msg2, msg1]).Pairwise
          (fun a b => keyLt (optKey b) (optKey a))) :=
  ⟨by decide, by decide, C8_record_boundaries [msg2, msg1] (by decide) (by decide)⟩
